import Mathlib

/-!
Shallow embedding of `src/cupsbackend.rs`: a CUPS backend executable.
The source is a single Rust file; the parts relevant to the claims are
the `ExitCode` and `BackendError` enums, `BackendError::to_exit_code`,
`BackendData::parse_args`, and `CupsBackend::run`.

External effects (environment variable lookup, `url::Url::parse`,
temp-file creation, copying of standard input) are modelled by an
explicit `World` record passed to `parse_args`.
-/

/-- Detail carried by a Rust `io::Error` (abstracted as its message). -/
abbrev IOErr := String

/-- Models a successfully parsed `url::Url` (the crate's internals are
external; we keep only the raw string that parsed). -/
structure Url where
  raw : String
deriving DecidableEq, Repr

/-- Models `tempfile::NamedTempFile`: an exclusively owned temporary file;
we track its contents as a byte list. -/
structure NamedTempFile where
  contents : List Nat
deriving DecidableEq, Repr

/-- Rust `enum JobSource { JobFile(PathBuf), TempFile(NamedTempFile) }`. -/
inductive JobSource where
  | JobFile (path : String)
  | TempFile (tmp : NamedTempFile)
deriving DecidableEq, Repr

/-- Rust `enum ExitCode` (no explicit discriminants: ordinals are
declaration order 0..5, which is what `code as i32` produces). -/
inductive ExitCode where
  | Success
  | ErrorPolicy
  | AuthRequired
  | HoldJob
  | StopQueue
  | CancelJob
deriving DecidableEq, Repr

/-- The integer a Rust `ExitCode as i32` cast yields: the declaration
ordinal of the variant. -/
def ExitCode.toInt : ExitCode → Int
  | .Success => 0
  | .ErrorPolicy => 1
  | .AuthRequired => 2
  | .HoldJob => 3
  | .StopQueue => 4
  | .CancelJob => 5

/-- Rust `enum BackendError { NoArgs, BadArgs, NoUri, IOError(io::Error) }`. -/
inductive BackendError where
  | NoArgs
  | BadArgs
  | NoUri
  | IOError (e : IOErr)
deriving DecidableEq, Repr

/-- Rust `BackendError::to_exit_code`: `NoArgs => Success`,
`BadArgs => ErrorPolicy`, `_ => CancelJob`. -/
def BackendError.to_exit_code : BackendError → ExitCode
  | .NoArgs => .Success
  | .BadArgs => .ErrorPolicy
  | _ => .CancelJob

/-- Rust `struct BackendData`.  `options` is the `HashMap` modelled as an
association list with insert-overwrites-value semantics. -/
structure BackendData where
  printer_uri : Url
  user_name : String
  title : String
  copies : Nat
  options : List (String × String)
  job_source : JobSource
deriving DecidableEq, Repr

/-- The process environment and I/O world `parse_args` interacts with:
the `DEVICE_URI` environment variable (none = unset or not valid
unicode), the external `url` crate's parser, the outcome of
`NamedTempFile::new` and of `io::copy` (none = success), and the bytes
of standard input. -/
structure World where
  deviceUri : Option String
  parseUrl : String → Option Url
  tmpNew : Option IOErr
  copyErr : Option IOErr
  stdin : List Nat

/-- Models Rust `str::parse::<u32>` (`u32::from_str`): an optional
leading `+`, then one or more ASCII digits, value below `2^32`;
anything else (empty, `-`, non-digits, overflow) fails. -/
def parseU32 (s : String) : Option Nat :=
  let ds := match s.data with
    | '+' :: rest => rest
    | cs => cs
  if ds = [] then none
  else if ds.all Char.isDigit then
    let n := ds.foldl (fun acc c => acc * 10 + (c.toNat - 48)) 0
    if n < 2 ^ 32 then some n else none
  else none

/-- Models Rust `str::to_lowercase` (character-wise lowercasing; we use
the ASCII table, which covers option strings). -/
def toLowerStr (s : String) : String := String.mk (s.data.map Char.toLower)

/-- Accumulating worker for `splitWhitespace`: the second argument holds
the current token's characters in reverse. -/
def splitWsAux : List Char → List Char → List String
  | [], acc => if acc = [] then [] else [String.mk acc.reverse]
  | c :: rest, acc =>
    if c.isWhitespace then
      if acc = [] then splitWsAux rest []
      else String.mk acc.reverse :: splitWsAux rest []
    else
      splitWsAux rest (c :: acc)

/-- Models Rust `str::split_whitespace`: split on whitespace runs,
discarding empty tokens. -/
def splitWhitespace (s : String) : List String := splitWsAux s.data []

/-- Models Rust `str::splitn(2, '=')` on a token: the part before the
first `=`, and the rest after it when an `=` is present. -/
def splitFirstEq : List Char → List Char × Option (List Char)
  | [] => ([], none)
  | '=' :: rest => ([], some rest)
  | c :: rest =>
    let (k, v) := splitFirstEq rest
    (c :: k, v)

/-- Models `HashMap::insert`: an existing key keeps its place and gets
the new value, a new key is appended. -/
def hmInsert (m : List (String × String)) (k v : String) : List (String × String) :=
  if m.any (fun p => p.1 = k) then
    m.map (fun p => if p.1 = k then (k, v) else p)
  else
    m ++ [(k, v)]

/-- The options-parsing loop of `parse_args` (lines 110-118): for each
whitespace-separated token of `args[5]`, split at the first `=`, default
the value to `"true"`, lowercase both, and insert into the map. -/
def parseOptions (raw : String) : List (String × String) :=
  (splitWhitespace raw).foldl
    (fun m opt =>
      let (k, v) := splitFirstEq opt.data
      hmInsert m (toLowerStr (String.mk k))
        (toLowerStr (String.mk (v.getD "true".data))))
    []

/-- Split a character list at every occurrence of `sep` (the pieces keep
no separator; empty pieces are kept, as in Rust `str::split`). -/
def splitOnChar (sep : Char) : List Char → List (List Char)
  | [] => [[]]
  | c :: rest =>
    let r := splitOnChar sep rest
    if c = sep then [] :: r
    else (c :: r.headD []) :: r.tail

/-- Models Rust `Path::new(s).file_name()` on Unix: the last path
component after dropping empty segments and `.` segments, unless it is
`..` (or there is none), in which case there is no file name. -/
def pathFileName (s : String) : Option String :=
  let comps := ((splitOnChar '/' s.data).map String.mk).filter (fun c => c ≠ "" ∧ c ≠ ".")
  match comps.getLast? with
  | none => none
  | some c => if c = ".." then none else some c

/-- Rust `BackendData::parse_args` (lines 77-136), as a function of the
argument vector and the `World`.  Mirrors the source: length checks,
`DEVICE_URI` lookup and URI parse, `user_name` from `args[2]`, title
resolution from `args[3]`/`args[6]`, `copies` from `args[4]` with
default 1, options from `args[5]`, and job-source selection (a 7th
argument becomes `JobFile`; otherwise a temp file is created and stdin
copied into it, either step's failure becoming `IOError`). -/
def parse_args (w : World) (args : List String) : Except BackendError BackendData :=
  if args.length < 2 then
    .error .NoArgs
  else if args.length ≠ 6 ∧ args.length ≠ 7 then
    .error .BadArgs
  else
    match w.deviceUri.bind w.parseUrl with
    | none => .error .NoUri
    | some printer_uri =>
      let user_name := args.getD 2 ""
      let title :=
        if args.getD 3 "" ≠ "" then
          args.getD 3 ""
        else if 7 ≤ args.length then
          (pathFileName (args.getD 6 "")).getD ""
        else
          "untitled"
      let copies := (parseU32 (args.getD 4 "")).getD 1
      let options := parseOptions (args.getD 5 "")
      let job_source : Except BackendError JobSource :=
        if 7 ≤ args.length then
          .ok (.JobFile (args.getD 6 ""))
        else
          match w.tmpNew with
          | some e => .error (.IOError e)
          | none =>
            match w.copyErr with
            | some e => .error (.IOError e)
            | none => .ok (.TempFile ⟨w.stdin⟩)
      match job_source with
      | .error e => .error e
      | .ok js => .ok ⟨printer_uri, user_name, title, copies, options, js⟩

/-- Rust `CupsBackend::process_data`: logs and returns `Success`. -/
def process_data (_ : BackendData) : ExitCode := .Success

/-- The exit status of `CupsBackend::run` (lines 158-179): parse, then
either process the data or map the error to its exit code; the process
exits with the ordinal of that code. -/
def runExitCode (w : World) (args : List String) : Int :=
  match parse_args w args with
  | .ok data => (process_data data).toInt
  | .error err => err.to_exit_code.toInt

/-! ## Helper lemmas: exhaustive characterization of `parse_args` -/

theorem aux_short (w : World) (args : List String) (h : args.length < 2) :
    parse_args w args = .error .NoArgs := by
  unfold parse_args
  rw [if_pos h]

theorem aux_badargs (w : World) (args : List String) (h2 : ¬ args.length < 2)
    (h6 : args.length ≠ 6) (h7 : args.length ≠ 7) :
    parse_args w args = .error .BadArgs := by
  unfold parse_args
  rw [if_neg h2, if_pos ⟨h6, h7⟩]

theorem aux_nouri (w : World) (args : List String)
    (hlen : args.length = 6 ∨ args.length = 7)
    (hb : w.deviceUri.bind w.parseUrl = none) :
    parse_args w args = .error .NoUri := by
  rcases hlen with h | h <;> simp [parse_args, h, hb]

theorem aux_seven (w : World) (args : List String) (pu : Url)
    (hlen : args.length = 7)
    (hb : w.deviceUri.bind w.parseUrl = some pu) :
    parse_args w args = .ok
      ⟨pu, args.getD 2 "",
       (if args.getD 3 "" ≠ "" then args.getD 3 ""
        else (pathFileName (args.getD 6 "")).getD ""),
       (parseU32 (args.getD 4 "")).getD 1,
       parseOptions (args.getD 5 ""),
       .JobFile (args.getD 6 "")⟩ := by
  simp [parse_args, hlen, hb]

theorem aux_six_ok (w : World) (args : List String) (pu : Url)
    (hlen : args.length = 6)
    (hb : w.deviceUri.bind w.parseUrl = some pu)
    (htmp : w.tmpNew = none) (hcopy : w.copyErr = none) :
    parse_args w args = .ok
      ⟨pu, args.getD 2 "",
       (if args.getD 3 "" ≠ "" then args.getD 3 "" else "untitled"),
       (parseU32 (args.getD 4 "")).getD 1,
       parseOptions (args.getD 5 ""),
       .TempFile ⟨w.stdin⟩⟩ := by
  simp [parse_args, hlen, hb, htmp, hcopy]

theorem aux_six_tmpfail (w : World) (args : List String) (pu : Url) (e : IOErr)
    (hlen : args.length = 6)
    (hb : w.deviceUri.bind w.parseUrl = some pu)
    (htmp : w.tmpNew = some e) :
    parse_args w args = .error (.IOError e) := by
  simp [parse_args, hlen, hb, htmp]

theorem aux_six_copyfail (w : World) (args : List String) (pu : Url) (e : IOErr)
    (hlen : args.length = 6)
    (hb : w.deviceUri.bind w.parseUrl = some pu)
    (htmp : w.tmpNew = none) (hcopy : w.copyErr = some e) :
    parse_args w args = .error (.IOError e) := by
  simp [parse_args, hlen, hb, htmp, hcopy]

/-- Full case analysis of a successful parse: the device URI parsed, the
length is 6 or 7, and the resulting record is the one the corresponding
branch builds. -/
theorem parse_ok_cases (w : World) (args : List String) (d : BackendData)
    (h : parse_args w args = .ok d) :
    ∃ pu, w.deviceUri.bind w.parseUrl = some pu ∧
      ((args.length = 7 ∧
        d = ⟨pu, args.getD 2 "",
             (if args.getD 3 "" ≠ "" then args.getD 3 ""
              else (pathFileName (args.getD 6 "")).getD ""),
             (parseU32 (args.getD 4 "")).getD 1,
             parseOptions (args.getD 5 ""),
             .JobFile (args.getD 6 "")⟩) ∨
       (args.length = 6 ∧ w.tmpNew = none ∧ w.copyErr = none ∧
        d = ⟨pu, args.getD 2 "",
             (if args.getD 3 "" ≠ "" then args.getD 3 "" else "untitled"),
             (parseU32 (args.getD 4 "")).getD 1,
             parseOptions (args.getD 5 ""),
             .TempFile ⟨w.stdin⟩⟩)) := by
  by_cases h2 : args.length < 2
  · rw [aux_short w args h2] at h
    cases h
  by_cases h6 : args.length = 6
  · cases hb : w.deviceUri.bind w.parseUrl with
    | none =>
      rw [aux_nouri w args (Or.inl h6) hb] at h
      cases h
    | some pu =>
      cases htmp : w.tmpNew with
      | some e =>
        rw [aux_six_tmpfail w args pu e h6 hb htmp] at h
        cases h
      | none =>
        cases hcopy : w.copyErr with
        | some e =>
          rw [aux_six_copyfail w args pu e h6 hb htmp hcopy] at h
          cases h
        | none =>
          rw [aux_six_ok w args pu h6 hb htmp hcopy] at h
          exact ⟨pu, rfl, Or.inr ⟨h6, rfl, rfl, (Except.ok.inj h).symm⟩⟩
  by_cases h7 : args.length = 7
  · cases hb : w.deviceUri.bind w.parseUrl with
    | none =>
      rw [aux_nouri w args (Or.inr h7) hb] at h
      cases h
    | some pu =>
      rw [aux_seven w args pu h7 hb] at h
      exact ⟨pu, rfl, Or.inl ⟨h7, (Except.ok.inj h).symm⟩⟩
  · rw [aux_badargs w args h2 h6 h7] at h
    cases h

/-- A file-name component produced by `pathFileName` is never empty. -/
theorem pathFileName_ne_empty (s c : String) (h : pathFileName s = some c) :
    c ≠ "" := by
  simp only [pathFileName] at h
  split at h
  · exact absurd h (by simp)
  · rename_i x heq
    split at h
    · exact absurd h (by simp)
    · rename_i hne
      obtain rfl : x = c := Option.some.inj h
      have hmem : x ∈ ((splitOnChar '/' s.data).map String.mk).filter
          (fun c => c ≠ "" ∧ c ≠ ".") :=
        List.mem_of_mem_getLast? (heq ▸ rfl)
      have h2 := (List.mem_filter.mp hmem).2
      simp only [decide_eq_true_eq] at h2
      exact h2.1

/-! ## Concrete fixtures for witnesses and counterexamples -/

/-- A world where `DEVICE_URI` is set and parses, temp-file creation and
stdin copying succeed, and stdin holds the two bytes `Hi`. -/
def w0 : World := ⟨some "http://h", fun s => some ⟨s⟩, none, none, [72, 105]⟩

/-- A world where `DEVICE_URI` is unset. -/
def wNoUri : World := ⟨none, fun s => some ⟨s⟩, none, none, []⟩

/-- A world where creating the temporary file fails. -/
def wTmpFail : World := ⟨some "http://h", fun s => some ⟨s⟩, some "tmpfail", none, []⟩

/-- A world where copying stdin into the temporary file fails. -/
def wCopyFail : World := ⟨some "http://h", fun s => some ⟨s⟩, none, some "copyfail", []⟩

/-- Length-7 fixture: empty title argument, file argument present. -/
def argsC5 : List String := ["prog", "1", "u", "", "5", "", "/tmp/report.ps"]

/-- The record `parse_args` builds for `w0` and `argsC5`. -/
def dC5 : BackendData :=
  ⟨⟨"http://h"⟩, "u", "report.ps", 5, [], .JobFile "/tmp/report.ps"⟩

/-- Length-7 fixture whose file argument `/` has no file-name component. -/
def argsC6 : List String := ["prog", "1", "u", "", "1", "", "/"]

/-- The record `parse_args` builds for `w0` and `argsC6`: its title is empty. -/
def dC6 : BackendData := ⟨⟨"http://h"⟩, "u", "", 1, [], .JobFile "/"⟩

/-- Length-6 fixture with non-numeric copies and a duplicate option key. -/
def argsC7 : List String := ["p", "1", "u", "t", "abc", "x=1 x=2"]

/-- The record `parse_args` builds for `w0` and `argsC7`. -/
def dC7 : BackendData :=
  ⟨⟨"http://h"⟩, "u", "t", 1, [("x", "2")], .TempFile ⟨[72, 105]⟩⟩

/-- Length-6 fixture with copies argument `"0"`. -/
def argsC8 : List String := ["p", "1", "u", "t", "0", "o=1"]

/-- Length-6 fixture with a well-formed invocation. -/
def argsC1 : List String := ["p", "1", "u", "t", "5", "a=1"]

/-- The record `parse_args` builds for `w0` and `argsC1`. -/
def dC1 : BackendData :=
  ⟨⟨"http://h"⟩, "u", "t", 5, [("a", "1")], .TempFile ⟨[72, 105]⟩⟩

/-- Length-6 fixture exercising the spec's options-parsing example. -/
def argsC9 : List String := ["p", "1", "u", "t", "1", "a=1 B=Two noval"]

/-- The record `parse_args` builds for `w0` and `argsC9`. -/
def dC9 : BackendData :=
  ⟨⟨"http://h"⟩, "u", "t", 1, [("a", "1"), ("b", "two"), ("noval", "true")],
   .TempFile ⟨[72, 105]⟩⟩

/-- Length-7 fixture with a file argument. -/
def argsC10 : List String := ["p", "1", "u", "t", "1", "o", "/a/b.ps"]

/-- The record `parse_args` builds for `w0` and `argsC10`. -/
def dC10 : BackendData :=
  ⟨⟨"http://h"⟩, "u", "t", 1, [("o", "true")], .JobFile "/a/b.ps"⟩

/-! ## Claims -/

/-- C1: the exit-code enumeration's ordinals are pinned to
`Success=0, ErrorPolicy=1, AuthRequired=2, HoldJob=3, StopQueue=4,
CancelJob=5`; the error-to-exit-code mapping sends `NoArgs` to `Success`
(0), `BadArgs` to `ErrorPolicy` (1), and both `NoUri` and `IOError` to
`CancelJob` (5); and `run` exits with 0 on the success path and with the
mapped ordinal on every error path. -/
theorem exit_code_contract :
    (ExitCode.toInt .Success = 0 ∧ ExitCode.toInt .ErrorPolicy = 1 ∧
     ExitCode.toInt .AuthRequired = 2 ∧ ExitCode.toInt .HoldJob = 3 ∧
     ExitCode.toInt .StopQueue = 4 ∧ ExitCode.toInt .CancelJob = 5) ∧
    (BackendError.to_exit_code .NoArgs = .Success ∧
     BackendError.to_exit_code .BadArgs = .ErrorPolicy ∧
     BackendError.to_exit_code .NoUri = .CancelJob ∧
     (∀ e : IOErr, BackendError.to_exit_code (.IOError e) = .CancelJob)) ∧
    (∀ (w : World) (args : List String) (d : BackendData),
        parse_args w args = .ok d → runExitCode w args = 0) ∧
    (∀ (w : World) (args : List String) (err : BackendError),
        parse_args w args = .error err →
        runExitCode w args = err.to_exit_code.toInt) := by
  refine ⟨⟨rfl, rfl, rfl, rfl, rfl, rfl⟩, ⟨rfl, rfl, rfl, fun e => rfl⟩, ?_, ?_⟩
  · intro w args d h
    simp [runExitCode, h, process_data, ExitCode.toInt]
  · intro w args err h
    simp [runExitCode, h]

/-- C1 witness: at a concrete well-formed invocation the process exits 0,
and at the concrete advertisement probe it exits with the mapped code. -/
theorem exit_code_contract_witness :
    runExitCode w0 argsC1 = 0 ∧
    runExitCode w0 ["prog"] = BackendError.NoArgs.to_exit_code.toInt :=
  ⟨exit_code_contract.2.2.1 w0 argsC1 dC1 (by rfl),
   exit_code_contract.2.2.2 w0 ["prog"] .NoArgs (by rfl)⟩

/-- C2: for every argument vector with fewer than 2 elements, and for
every environment (`DEVICE_URI` set or not), parsing fails with
`NoArgs`. -/
theorem parse_args_short_noargs (w : World) (args : List String)
    (h : args.length < 2) : parse_args w args = .error .NoArgs :=
  aux_short w args h

/-- C2 witness: the one-element vector fails with `NoArgs` in a world
without `DEVICE_URI`. -/
theorem parse_args_short_noargs_witness :
    (["prog"] : List String).length < 2 ∧
    parse_args wNoUri ["prog"] = .error .NoArgs :=
  ⟨by decide, parse_args_short_noargs wNoUri ["prog"] (by decide)⟩

/-- C3 counterexample: the claim says every vector whose length is not 6
and not 7 yields `BadArgs`, but the one-element vector (length 1, which
is neither 6 nor 7) yields `NoArgs` instead. -/
theorem badargs_arity_cex :
    (["prog"] : List String).length ≠ 6 ∧ (["prog"] : List String).length ≠ 7 ∧
    parse_args w0 ["prog"] = .error .NoArgs ∧
    parse_args w0 ["prog"] ≠ .error .BadArgs := by
  refine ⟨by decide, by decide, by rfl, ?_⟩
  intro h
  rw [show parse_args w0 ["prog"] = .error .NoArgs from rfl] at h
  cases h

/-- C3 amended: for every argument vector with at least 2 elements whose
length is neither 6 nor 7, regardless of content and environment,
parsing yields `BadArgs` (vectors shorter than 2 yield `NoArgs`
instead). -/
theorem parse_args_arity_badargs (w : World) (args : List String)
    (h2 : 2 ≤ args.length) (h6 : args.length ≠ 6) (h7 : args.length ≠ 7) :
    parse_args w args = .error .BadArgs :=
  aux_badargs w args (by omega) h6 h7

/-- C3 witness: a three-element vector fails with `BadArgs`. -/
theorem parse_args_arity_badargs_witness :
    parse_args w0 ["p", "1", "u"] = .error .BadArgs :=
  parse_args_arity_badargs w0 ["p", "1", "u"] (by decide) (by decide) (by decide)

/-- C4: for every argument vector of length exactly 6 or 7, if
`DEVICE_URI` is unset or its value does not parse as a valid URI,
parsing fails with `NoUri`, regardless of the other arguments. -/
theorem parse_args_nouri (w : World) (args : List String)
    (hlen : args.length = 6 ∨ args.length = 7)
    (huri : w.deviceUri = none ∨
            ∀ u, w.deviceUri = some u → w.parseUrl u = none) :
    parse_args w args = .error .NoUri := by
  apply aux_nouri w args hlen
  rcases huri with h | h
  · rw [h]; rfl
  · cases hd : w.deviceUri with
    | none => rfl
    | some u => simp [h u hd]

/-- C4 witness: a six-element vector in a world without `DEVICE_URI`
fails with `NoUri`. -/
theorem parse_args_nouri_witness :
    parse_args wNoUri ["p", "1", "u", "t", "c", "o"] = .error .NoUri :=
  parse_args_nouri wNoUri ["p", "1", "u", "t", "c", "o"]
    (Or.inl (by decide)) (Or.inl rfl)

/-- C5: for every successful parse, the title is `argv[3]` when that is
non-empty; otherwise the file-name component of `argv[6]` when a 7th
argument is present; otherwise the literal string `"untitled"`. -/
theorem parse_args_title_resolution (w : World) (args : List String)
    (d : BackendData) (h : parse_args w args = .ok d) :
    d.title = (if args.getD 3 "" ≠ "" then args.getD 3 ""
               else if 7 ≤ args.length then (pathFileName (args.getD 6 "")).getD ""
               else "untitled") := by
  obtain ⟨pu, _, hc | hc⟩ := parse_ok_cases w args d h
  · obtain ⟨hlen, rfl⟩ := hc
    simp [hlen]
  · obtain ⟨hlen, _, _, rfl⟩ := hc
    simp [hlen]

/-- C5 witness: with empty `argv[3]` and file argument
`/tmp/report.ps`, the resolved title is that file's name. -/
theorem parse_args_title_resolution_witness :
    dC5.title = (if argsC5.getD 3 "" ≠ "" then argsC5.getD 3 ""
                 else if 7 ≤ argsC5.length then
                   (pathFileName (argsC5.getD 6 "")).getD ""
                 else "untitled") :=
  parse_args_title_resolution w0 argsC5 dC5 (by rfl)

/-- C6 counterexample: the claim says a successful parse always has a
non-empty title; but with `argv[3] = ""` and `argv[6] = "/"` (a path
with no file-name component) parsing succeeds with an empty title. -/
theorem title_nonempty_cex :
    Except.map BackendData.title (parse_args w0 argsC6) = .ok "" := by rfl

/-- C6 amended: for every successful parse, the title is empty exactly
when `argv[3]` is empty, a 7th argument is present, and `argv[6]` has no
file-name component (empty path, root, or a path ending in `..`); in
every other case the title is non-empty. -/
theorem title_empty_iff (w : World) (args : List String) (d : BackendData)
    (h : parse_args w args = .ok d) :
    (d.title = "" ↔
      (args.getD 3 "" = "" ∧ 7 ≤ args.length ∧
       pathFileName (args.getD 6 "") = none)) := by
  obtain ⟨pu, _, hc | hc⟩ := parse_ok_cases w args d h
  · obtain ⟨hlen, rfl⟩ := hc
    constructor
    · intro ht
      have ht' : (if args.getD 3 "" ≠ "" then args.getD 3 ""
                  else (pathFileName (args.getD 6 "")).getD "") = "" := ht
      by_cases h3 : args.getD 3 "" = ""
      · rw [if_neg (not_not_intro h3)] at ht'
        refine ⟨h3, by omega, ?_⟩
        cases hpf : pathFileName (args.getD 6 "") with
        | none => rfl
        | some c =>
          rw [hpf] at ht'
          exact absurd ht' (pathFileName_ne_empty (args.getD 6 "") c hpf)
      · rw [if_pos h3] at ht'
        exact absurd ht' h3
    · rintro ⟨h3, -, hpf⟩
      show (if args.getD 3 "" ≠ "" then args.getD 3 ""
            else (pathFileName (args.getD 6 "")).getD "") = ""
      rw [if_neg (not_not_intro h3), hpf]
      rfl
  · obtain ⟨hlen, _, _, rfl⟩ := hc
    constructor
    · intro ht
      have ht' : (if args.getD 3 "" ≠ "" then args.getD 3 ""
                  else "untitled") = "" := ht
      by_cases h3 : args.getD 3 "" = ""
      · rw [if_neg (not_not_intro h3)] at ht'
        exact absurd ht' (by decide)
      · rw [if_pos h3] at ht'
        exact absurd ht' h3
    · rintro ⟨-, h7, -⟩
      exact absurd h7 (by omega)

/-- C6 witness: at the concrete input with `argv[3] = ""` and
`argv[6] = "/"`, the amended characterization yields the empty title. -/
theorem title_empty_iff_witness :
    dC6.title = "" :=
  (title_empty_iff w0 argsC6 dC6 (by rfl)).mpr ⟨rfl, by decide, by rfl⟩

/-- C7: for every successful parse, the copies field equals the result
of parsing `argv[4]` as an unsigned integer when the parse succeeds, and
equals 1 on any parse failure; in particular `"abc"` gives 1, `"5"`
gives 5, `"-3"` gives 1 and `""` gives 1. -/
theorem copies_parse_default :
    (∀ (w : World) (args : List String) (d : BackendData),
        parse_args w args = .ok d →
        d.copies = (parseU32 (args.getD 4 "")).getD 1) ∧
    (parseU32 "abc").getD 1 = 1 ∧ (parseU32 "5").getD 1 = 5 ∧
    (parseU32 "-3").getD 1 = 1 ∧ (parseU32 "").getD 1 = 1 := by
  refine ⟨?_, by decide, by decide, by decide, by decide⟩
  intro w args d h
  obtain ⟨pu, _, hc | hc⟩ := parse_ok_cases w args d h
  · obtain ⟨_, rfl⟩ := hc; rfl
  · obtain ⟨_, _, _, rfl⟩ := hc; rfl

/-- C7 witness: with `argv[4] = "abc"` the parsed request has copies 1,
as the defaulting rule prescribes. -/
theorem copies_parse_default_witness :
    dC7.copies = (parseU32 (argsC7.getD 4 "")).getD 1 :=
  copies_parse_default.1 w0 argsC7 dC7 (by rfl)

/-- C8 counterexample: the claim says the copies field of a successful
parse is always at least 1; but with `argv[4] = "0"` parsing succeeds
with copies 0. -/
theorem copies_ge_one_cex :
    Except.map BackendData.copies (parse_args w0 argsC8) = .ok 0 ∧
    ¬ 1 ≤ (0 : Nat) :=
  ⟨by rfl, by decide⟩

/-- C8 amended: for every successful parse the copies field equals the
parsed value of `argv[4]` (default 1), and it is at least 1 unless
`argv[4]` parses as the integer 0, in which case it is 0. -/
theorem copies_lower_bound (w : World) (args : List String) (d : BackendData)
    (h : parse_args w args = .ok d) :
    d.copies = (parseU32 (args.getD 4 "")).getD 1 ∧
    (parseU32 (args.getD 4 "") ≠ some 0 → 1 ≤ d.copies) := by
  have hc : d.copies = (parseU32 (args.getD 4 "")).getD 1 := by
    obtain ⟨pu, _, hcase | hcase⟩ := parse_ok_cases w args d h
    · obtain ⟨_, rfl⟩ := hcase; rfl
    · obtain ⟨_, _, _, rfl⟩ := hcase; rfl
  refine ⟨hc, ?_⟩
  intro hne
  rw [hc]
  cases hp : parseU32 (args.getD 4 "") with
  | none => simp
  | some n =>
    simp only [Option.getD_some]
    rcases Nat.eq_zero_or_pos n with rfl | hpos
    · exact absurd hp hne
    · exact hpos

/-- C8 witness: at a concrete invocation with `argv[4] = "5"` the copies
field is at least 1. -/
theorem copies_lower_bound_witness :
    1 ≤ dC1.copies :=
  (copies_lower_bound w0 argsC1 dC1 (by rfl)).2 (by decide)

/-- C9: for every successful parse, the options mapping is exactly the
one obtained by splitting `argv[5]` on whitespace runs, splitting each
token at the first `=` (value `"true"` when absent), lowercasing key and
value, a later key overwriting an earlier one; in particular
`"a=1 B=Two noval"` yields `a=1, b=two, noval=true` and `"x=1 x=2"`
yields `x=2`. -/
theorem options_parsing :
    (∀ (w : World) (args : List String) (d : BackendData),
        parse_args w args = .ok d →
        d.options = parseOptions (args.getD 5 "")) ∧
    parseOptions "a=1 B=Two noval" =
      [("a", "1"), ("b", "two"), ("noval", "true")] ∧
    parseOptions "x=1 x=2" = [("x", "2")] := by
  refine ⟨?_, by rfl, by rfl⟩
  intro w args d h
  obtain ⟨pu, _, hc | hc⟩ := parse_ok_cases w args d h
  · obtain ⟨_, rfl⟩ := hc; rfl
  · obtain ⟨_, _, _, rfl⟩ := hc; rfl

/-- C9 witness: at the concrete invocation whose `argv[5]` is the spec's
example string, the parsed request carries exactly that mapping. -/
theorem options_parsing_witness :
    dC9.options = parseOptions (argsC9.getD 5 "") :=
  options_parsing.1 w0 argsC9 dC9 (by rfl)

/-- C10: when a 7th argument is present the job source is the `JobFile`
variant holding `argv[6]` unchanged and the result is independent of the
temp-file, copy and stdin state (no I/O is performed); otherwise, on
success the job source is a `TempFile` whose contents are exactly the
bytes of standard input (requiring temp-file creation and the copy to
have succeeded), and a failure of either step makes parsing fail with
`IOError`. -/
theorem job_source_resolution :
    (∀ (w : World) (args : List String) (d : BackendData),
        parse_args w args = .ok d → 7 ≤ args.length →
        d.job_source = .JobFile (args.getD 6 "")) ∧
    (∀ (w w' : World) (args : List String), 7 ≤ args.length →
        w.deviceUri = w'.deviceUri → w.parseUrl = w'.parseUrl →
        parse_args w args = parse_args w' args) ∧
    (∀ (w : World) (args : List String) (d : BackendData),
        parse_args w args = .ok d → args.length < 7 →
        d.job_source = .TempFile ⟨w.stdin⟩ ∧
        w.tmpNew = none ∧ w.copyErr = none) ∧
    (∀ (w : World) (args : List String) (pu : Url) (e : IOErr),
        args.length = 6 → w.deviceUri.bind w.parseUrl = some pu →
        w.tmpNew = some e → parse_args w args = .error (.IOError e)) ∧
    (∀ (w : World) (args : List String) (pu : Url) (e : IOErr),
        args.length = 6 → w.deviceUri.bind w.parseUrl = some pu →
        w.tmpNew = none → w.copyErr = some e →
        parse_args w args = .error (.IOError e)) := by
  refine ⟨?_, ?_, ?_, aux_six_tmpfail, aux_six_copyfail⟩
  · intro w args d h h7
    obtain ⟨pu, _, hc | hc⟩ := parse_ok_cases w args d h
    · obtain ⟨_, rfl⟩ := hc; rfl
    · obtain ⟨hlen, _, _, rfl⟩ := hc
      exact absurd h7 (by omega)
  · intro w w' args h7 hdu hpu
    by_cases h7e : args.length = 7
    · cases hb : w.deviceUri.bind w.parseUrl with
      | none =>
        have hb' : w'.deviceUri.bind w'.parseUrl = none := by
          rw [← hdu, ← hpu]; exact hb
        rw [aux_nouri w args (Or.inr h7e) hb, aux_nouri w' args (Or.inr h7e) hb']
      | some pu =>
        have hb' : w'.deviceUri.bind w'.parseUrl = some pu := by
          rw [← hdu, ← hpu]; exact hb
        rw [aux_seven w args pu h7e hb, aux_seven w' args pu h7e hb']
    · rw [aux_badargs w args (by omega) (by omega) h7e,
          aux_badargs w' args (by omega) (by omega) h7e]
  · intro w args d h hlt
    obtain ⟨pu, _, hc | hc⟩ := parse_ok_cases w args d h
    · obtain ⟨hlen, rfl⟩ := hc
      exact absurd hlt (by omega)
    · obtain ⟨hlen, htmp, hcopy, rfl⟩ := hc
      exact ⟨rfl, htmp, hcopy⟩

/-- C10 witness: a concrete 7-argument invocation yields the `JobFile`
source for `argv[6]`, and a concrete 6-argument invocation whose
temp-file creation fails yields `IOError`. -/
theorem job_source_resolution_witness :
    dC10.job_source = .JobFile (argsC10.getD 6 "") ∧
    parse_args wTmpFail ["p", "1", "u", "t", "1", "o"] =
      .error (.IOError "tmpfail") :=
  ⟨job_source_resolution.1 w0 argsC10 dC10 (by rfl) (by decide),
   job_source_resolution.2.2.2.1 wTmpFail ["p", "1", "u", "t", "1", "o"]
     ⟨"http://h"⟩ "tmpfail" (by decide) (by rfl) (by rfl)⟩
